import Mathlib

/-!
Verification development for the `oskhen-chess-gui` repository.

The repository's only source file is `src/main.rs`: the GUI layer (board
clicks, highlighted tiles, pause/promotion menu, replay button).  The chess
rules engine it drives (`chess::game::{Game, GameState, Rank, Team}`,
`chess::moves::{Action, ActionType}`) is an external crate whose code is not
in the repository, so the engine is modelled here from the specification
(every such definition carries a doc comment starting with
`Modelled from the spec:`).  The GUI definitions are translated directly
from `src/main.rs`.

Modelling conventions:
- Rust `isize`/`i16` values are `Int`; casts that truncate toward zero are
  `Int.tdiv` / explicit truncation.  `f32` mouse coordinates are modelled as
  `Int`: every threshold the GUI compares against (10, cell size 67, window
  size 536, replay box bounds) is an exact integer, and the `as isize` /
  `as i16` casts truncate toward zero, which the integer model mirrors.
- Rust functions whose only failure mode is `panic!` return `Option`
  (`none` = panic); functions returning `Result` return `Except`.
- `&mut self` methods become functions from the state to the new state;
  `perform_action`, which mutates the game and returns a `Result`,
  returns the pair (new game, result).
-/

namespace Chess

/-- Modelled from the spec: a side, White or Black (§3, glossary). -/
inductive Team
| White
| Black
deriving DecidableEq, Repr

/-- Modelled from the spec: a piece's movement class (§3, glossary). -/
inductive Rank
| King
| Queen
| Rook
| Bishop
| Knight
| Pawn
deriving DecidableEq, Repr

/-- Modelled from the spec: a piece is a Team plus a Rank (§3). -/
structure Piece where
  team : Team
  rank : Rank
deriving DecidableEq, Repr

/-- Modelled from the spec: special-move classification of an action (§3). -/
inductive ActionType
| Normal
| Capture
| Castle
| EnPassant
| Promotion
deriving DecidableEq, Repr

/-- A board coordinate: (file 0-7, rank 0-7), as used by the GUI
(`(game_x, game_y)` pairs of `isize`). -/
abbrev Coord := Int × Int

/-- Modelled from the spec: an action is an origin, a destination and an
action type (§3).  The Rust origin field is named `from` (a Lean keyword),
here `fromC`; the GUI reads the destination coordinate as
`a.to.coordinate`, modelled by the flattened field `toC` (`to` is also a
reserved token in Lean). -/
structure Action where
  fromC : Coord
  toC : Coord
  action_type : ActionType
deriving DecidableEq, Repr

/-- Modelled from the spec: derived game state (§3). -/
inductive GameState
| Active
| Check
| Checkmate
| Stalemate
deriving DecidableEq, Repr

/-- Modelled from the spec: the engine's error kinds (§7). -/
inductive Error
| NoSelectablePiece
| IllegalAction
| PromotionPieceUnset
deriving DecidableEq, Repr

/-- A coordinate is on the 8x8 board (file 0-7, rank 0-7). -/
abbrev InRange (c : Coord) : Prop :=
  0 ≤ c.1 ∧ c.1 < 8 ∧ 0 ≤ c.2 ∧ c.2 < 8

/-- Modelled from the spec: the Board owns exactly 64 squares (§3);
represented as a function from the 64 (file, rank) pairs to optional
pieces. -/
def Board := Fin 8 → Fin 8 → Option Piece

/-- Modelled from the spec: `piece_at(coord)` lookup (§4.1).  Out-of-range
coordinates hold no piece (the Board owns only the 64 squares). -/
def pieceAt (b : Board) (c : Coord) : Option Piece :=
  if h : InRange c then b ⟨c.1.toNat, by omega⟩ ⟨c.2.toNat, by omega⟩ else none

/-- Modelled from the spec: `place(coord, Option<Piece>)` (§4.1).
Placing out of range is a contract violation; the model leaves the board
unchanged there (no square exists to mutate). -/
def place (b : Board) (c : Coord) (p : Option Piece) : Board :=
  if InRange c then
    fun i j => if i.val = c.1.toNat ∧ j.val = c.2.toNat then p else b i j
  else b

/-- All 64 board coordinates. -/
def allCoords : List Coord :=
  (List.range 8).flatMap (fun i => (List.range 8).map (fun j => (Int.ofNat i, Int.ofNat j)))

/-- The opposing team. -/
def opponent : Team → Team
| Team.White => Team.Black
| Team.Black => Team.White

/-- Rook ray directions (§4.2). -/
def dirsRook : List Coord := [(1,0), (-1,0), (0,1), (0,-1)]

/-- Bishop ray directions (§4.2). -/
def dirsBishop : List Coord := [(1,1), (1,-1), (-1,1), (-1,-1)]

/-- Queen ray directions (§4.2). -/
def dirsQueen : List Coord := dirsRook ++ dirsBishop

/-- Knight offset set (§4.2). -/
def knightOffsets : List Coord :=
  [(1,2), (2,1), (2,-1), (1,-2), (-1,-2), (-2,-1), (-2,1), (-1,2)]

/-- King offset set (§4.2). -/
def kingOffsets : List Coord :=
  [(1,0), (1,1), (0,1), (-1,1), (-1,0), (-1,-1), (0,-1), (1,-1)]

/-- Modelled from the spec: walk one ray direction until board edge, own
piece (stop before), or enemy piece (include as Capture, then stop)
(§4.2).  The fuel argument (8 suffices on an 8x8 board) makes the
recursion structural. -/
def rayWalk (b : Board) (t : Team) (d : Coord) : Coord → Nat → List (Coord × ActionType)
| _, 0 => []
| c, Nat.succ n =>
  let c' : Coord := (c.1 + d.1, c.2 + d.2)
  if InRange c' then
    match pieceAt b c' with
    | none => (c', ActionType.Normal) :: rayWalk b t d c' n
    | some p => if p.team = t then [] else [(c', ActionType.Capture)]
  else []

/-- Modelled from the spec: sliding-piece destinations along a direction
set (§4.2). -/
def slideMoves (b : Board) (t : Team) (c : Coord) (dirs : List Coord) :
    List (Coord × ActionType) :=
  dirs.flatMap (fun d => rayWalk b t d c 8)

/-- Modelled from the spec: fixed-offset destinations (Knight/King), each
checked for board bounds and own-piece collision (§4.2). -/
def stepMoves (b : Board) (t : Team) (c : Coord) (offs : List Coord) :
    List (Coord × ActionType) :=
  offs.filterMap (fun o =>
    let c' : Coord := (c.1 + o.1, c.2 + o.2)
    if InRange c' then
      match pieceAt b c' with
      | none => some (c', ActionType.Normal)
      | some p => if p.team = t then none else some (c', ActionType.Capture)
    else none)

/-- Pawn forward direction: White advances toward rank 7, Black toward
rank 0 (§4.2; the GUI's `game_y` puts White at the bottom). -/
def pawnDir : Team → Int
| Team.White => 1
| Team.Black => -1

/-- Pawn starting rank (§4.2). -/
def pawnStartRank : Team → Int
| Team.White => 1
| Team.Black => 6

/-- Pawn farthest rank, where Promotion is flagged (§4.2). -/
def pawnLastRank : Team → Int
| Team.White => 7
| Team.Black => 0

/-- Home rank of the back-row pieces, used for castling (§4.2). -/
def homeRank : Team → Int
| Team.White => 0
| Team.Black => 7

/-- Modelled from the spec: attack squares of one piece — the squares it
could reach in one pseudo-legal move (§4.2, glossary): ray walks for
sliding pieces, offset sets for Knight/King, the two forward diagonals
for a Pawn (its capturing moves).  Castling and pawn pushes are not
attacks. -/
def attackSquares (b : Board) (c : Coord) (p : Piece) : List Coord :=
  match p.rank with
  | Rank.Rook => (slideMoves b p.team c dirsRook).map (·.1)
  | Rank.Bishop => (slideMoves b p.team c dirsBishop).map (·.1)
  | Rank.Queen => (slideMoves b p.team c dirsQueen).map (·.1)
  | Rank.Knight => (stepMoves b p.team c knightOffsets).map (·.1)
  | Rank.King => (stepMoves b p.team c kingOffsets).map (·.1)
  | Rank.Pawn =>
    [((c.1 - 1 : Int), c.2 + pawnDir p.team), ((c.1 + 1 : Int), c.2 + pawnDir p.team)].filter
      (fun c' => decide (InRange c'))

/-- Modelled from the spec: attack query — is `target` attacked by team `t`
on board `b` (§4.2)? -/
def attacked (b : Board) (target : Coord) (t : Team) : Bool :=
  allCoords.any (fun c =>
    match pieceAt b c with
    | some p => if p.team = t then decide (target ∈ attackSquares b c p) else false
    | none => false)

/-- The square holding the King of team `t`, if any. -/
def findKing (b : Board) (t : Team) : Option Coord :=
  allCoords.find? (fun c => pieceAt b c = some ⟨t, Rank.King⟩)

/-- Modelled from the spec: the Game owns one Board, the side to move
(`player`, the name the GUI reads), the append-only move history, and the
pending promotion Rank (`promotion_piece`, the field the GUI reads) (§3).
GameState is derived, not stored (§3, §9). -/
structure Game where
  board : Board
  player : Team
  history : List Action
  promotion_piece : Option Rank

/-- Whether the history contains a move out of square `c` ("previously
moved", §4.2 castling). -/
def hasMovedFrom (hist : List Action) (c : Coord) : Bool :=
  hist.any (fun a => a.fromC = c)

/-- Modelled from the spec: castling offers for a King on its home square —
relevant Rook present and unmoved, King unmoved, squares between them
empty, and none of the King's start/transit/destination squares attacked
by the opponent (§4.2). -/
def castleMoves (g : Game) (c : Coord) (t : Team) : List (Coord × ActionType) :=
  let y := homeRank t
  if c = ((4 : Int), y) then
    (if pieceAt g.board (7, y) = some ⟨t, Rank.Rook⟩
        ∧ pieceAt g.board (5, y) = none ∧ pieceAt g.board (6, y) = none
        ∧ hasMovedFrom g.history (4, y) = false ∧ hasMovedFrom g.history (7, y) = false
        ∧ attacked g.board (4, y) (opponent t) = false
        ∧ attacked g.board (5, y) (opponent t) = false
        ∧ attacked g.board (6, y) (opponent t) = false
     then [(((6 : Int), y), ActionType.Castle)] else [])
    ++
    (if pieceAt g.board (0, y) = some ⟨t, Rank.Rook⟩
        ∧ pieceAt g.board (1, y) = none ∧ pieceAt g.board (2, y) = none
        ∧ pieceAt g.board (3, y) = none
        ∧ hasMovedFrom g.history (4, y) = false ∧ hasMovedFrom g.history (0, y) = false
        ∧ attacked g.board (4, y) (opponent t) = false
        ∧ attacked g.board (3, y) (opponent t) = false
        ∧ attacked g.board (2, y) (opponent t) = false
     then [(((2 : Int), y), ActionType.Castle)] else [])
  else []

/-- Modelled from the spec: pawn destinations — single forward step if
empty, double step only from the starting rank with both squares empty,
diagonal Capture only onto enemy-occupied squares, EnPassant onto the
square passed by an enemy pawn that advanced two squares on the
immediately preceding move, and the Promotion flag on any forward or
diagonal move landing on the farthest rank (§4.2). -/
def pawnMoves (g : Game) (c : Coord) (t : Team) : List (Coord × ActionType) :=
  let d := pawnDir t
  let one : Coord := (c.1, c.2 + d)
  let two : Coord := (c.1, c.2 + 2 * d)
  let fwd : List (Coord × ActionType) :=
    if InRange one ∧ pieceAt g.board one = none then
      (one, if one.2 = pawnLastRank t then ActionType.Promotion else ActionType.Normal) ::
        (if c.2 = pawnStartRank t ∧ InRange two ∧ pieceAt g.board two = none
         then [(two, ActionType.Normal)] else [])
    else []
  let caps : List (Coord × ActionType) :=
    [((c.1 - 1 : Int), c.2 + d), ((c.1 + 1 : Int), c.2 + d)].filterMap (fun c' =>
      if InRange c' then
        match pieceAt g.board c' with
        | some p =>
          if p.team = t then none
          else some (c', if c'.2 = pawnLastRank t then ActionType.Promotion
                         else ActionType.Capture)
        | none => none
      else none)
  let ep : List (Coord × ActionType) :=
    match g.history.getLast? with
    | some la =>
      if pieceAt g.board la.toC = some ⟨opponent t, Rank.Pawn⟩
         ∧ la.toC.2 - la.fromC.2 = 2 * (-d)
         ∧ la.toC.2 = c.2 ∧ (la.toC.1 - c.1 = 1 ∨ c.1 - la.toC.1 = 1)
      then [((la.toC.1, c.2 + d), ActionType.EnPassant)] else []
    | none => []
  fwd ++ caps ++ ep

/-- Modelled from the spec: pseudo-legal destinations of the piece `p`
standing on `c` (§4.2), tagged with their action types and turned into
Actions. -/
def movesFor (g : Game) (c : Coord) (p : Piece) : List Action :=
  let dests : List (Coord × ActionType) :=
    match p.rank with
    | Rank.Rook => slideMoves g.board p.team c dirsRook
    | Rank.Bishop => slideMoves g.board p.team c dirsBishop
    | Rank.Queen => slideMoves g.board p.team c dirsQueen
    | Rank.Knight => stepMoves g.board p.team c knightOffsets
    | Rank.King => stepMoves g.board p.team c kingOffsets ++ castleMoves g c p.team
    | Rank.Pawn => pawnMoves g c p.team
  dests.map (fun dt => ⟨c, dt.1, dt.2⟩)

/-- Pseudo-legal moves from a coordinate: empty unless the square holds a
piece of the side to move (§4.2). -/
def pseudoLegal (g : Game) (c : Coord) : List Action :=
  match pieceAt g.board c with
  | some p => if p.team = g.player then movesFor g c p else []
  | none => []

/-- Modelled from the spec: board mutation of one applied action —
relocation of the moved piece, rook relocation for Castle, captured-pawn
removal for EnPassant, piece-Rank substitution for Promotion (§4.3). -/
def boardApply (b : Board) (pp : Option Rank) (a : Action) : Board :=
  let moved := pieceAt b a.fromC
  match a.action_type with
  | ActionType.Normal => place (place b a.fromC none) a.toC moved
  | ActionType.Capture => place (place b a.fromC none) a.toC moved
  | ActionType.Promotion =>
    place (place b a.fromC none) a.toC
      (moved.map (fun p => ⟨p.team, pp.getD p.rank⟩))
  | ActionType.EnPassant =>
    place (place (place b a.fromC none) (a.toC.1, a.fromC.2) none) a.toC moved
  | ActionType.Castle =>
    let y := a.fromC.2
    let rookFrom : Coord := if a.toC.1 = 6 then (7, y) else (0, y)
    let rookTo : Coord := if a.toC.1 = 6 then (5, y) else (3, y)
    let rook := pieceAt b rookFrom
    place (place (place (place b a.fromC none) rookFrom none) rookTo rook) a.toC moved

/-- Modelled from the spec: the legality filter's king-safety check — apply
the move on a scratch copy and ask whether the mover's King's square is
attacked by the opponent (§4.2). -/
def kingSafeAfter (g : Game) (a : Action) : Bool :=
  let b' := boardApply g.board g.promotion_piece a
  match findKing b' g.player with
  | some k => !(attacked b' k (opponent g.player))
  | none => true

/-- Modelled from the spec: legal actions from a coordinate — the
pseudo-legal moves surviving the simulate-and-check king-safety filter
(§4.2, §4.3). -/
def legalActions (g : Game) (c : Coord) : List Action :=
  (pseudoLegal g c).filter (kingSafeAfter g)

/-- Modelled from the spec: `select(coord)` — the legal actions of the
piece on `coord` if it belongs to the side to move, `NoSelectablePiece`
otherwise (empty square, opponent's piece) (§4.3). -/
def select (g : Game) (c : Coord) : Except Error (List Action) :=
  match pieceAt g.board c with
  | some p =>
    if p.team = g.player then Except.ok (legalActions g c)
    else Except.error Error.NoSelectablePiece
  | none => Except.error Error.NoSelectablePiece

/-- All legal actions of the side to move. -/
def allLegalActions (g : Game) : List Action :=
  allCoords.flatMap (fun c => legalActions g c)

/-- Whether the side to move is in check. -/
def inCheck (g : Game) : Bool :=
  match findKing g.board g.player with
  | some k => attacked g.board k (opponent g.player)
  | none => false

/-- Modelled from the spec: the derived GameState — Checkmate if the side
to move has zero legal actions and is in Check, Stalemate if zero legal
actions and not in Check, else Check or Active (§4.3); recomputed from the
position, never cached (§9). -/
def get_game_state (g : Game) : GameState :=
  if allLegalActions g = [] then
    if inCheck g then GameState.Checkmate else GameState.Stalemate
  else
    if inCheck g then GameState.Check else GameState.Active

/-- Modelled from the spec: `set_promotion_piece(rank)` stores the pending
promotion Rank; no Board effect until a Promotion action is applied
(§4.3). -/
def set_promotion_piece (g : Game) (r : Rank) : Game :=
  { g with promotion_piece := some r }

/-- Modelled from the spec: `apply`/`perform_action` — fails with
`PromotionPieceUnset` (Board unmodified) if the action is a Promotion and
no pending Rank is set; otherwise mutates the Board, appends the history,
flips the side to move and clears the pending promotion Rank (§4.3).  The
caller is trusted to pass a member of the last returned legal set. -/
def perform_action (g : Game) (a : Action) : Game × Except Error Unit :=
  if a.action_type = ActionType.Promotion ∧ g.promotion_piece = none then
    (g, Except.error Error.PromotionPieceUnset)
  else
    ({ board := boardApply g.board g.promotion_piece a,
       player := opponent g.player,
       history := g.history ++ [a],
       promotion_piece := none }, Except.ok ())

/-- Modelled from the spec: the notation module's inverse parser — a file
letter a-h followed by the 1-based rank digit, mapped back to the (file,
rank) coordinate (§4.4, §8 round-trip). -/
def parseCoord (s : String) : Option Coord :=
  match s.toList with
  | [f, r] =>
    (match f with
     | 'a' => some (0 : Int) | 'b' => some 1 | 'c' => some 2 | 'd' => some 3
     | 'e' => some 4 | 'f' => some 5 | 'g' => some 6 | 'h' => some 7
     | _ => none).bind (fun x =>
      (match r with
       | '1' => some (0 : Int) | '2' => some 1 | '3' => some 2 | '4' => some 3
       | '5' => some 4 | '6' => some 5 | '7' => some 6 | '8' => some 7
       | _ => none).map (fun y => (x, y)))
  | _ => none

/-- Modelled from the spec: `move_from_string` — parse an algebraic
coordinate string and select the piece there (§4.3, §6; the GUI's only
entry to `select`).  An unparsable string selects nothing. -/
def move_from_string (g : Game) (s : String) : Except Error (List Action) :=
  match parseCoord s with
  | some c => select g c
  | none => Except.error Error.NoSelectablePiece

/-- Back-rank arrangement of the initial position (§8). -/
def backRank (i : Fin 8) : Rank :=
  match i.val with
  | 0 => Rank.Rook
  | 1 => Rank.Knight
  | 2 => Rank.Bishop
  | 3 => Rank.Queen
  | 4 => Rank.King
  | 5 => Rank.Bishop
  | 6 => Rank.Knight
  | _ => Rank.Rook

/-- Modelled from the spec: the initial board — 16 pawns plus the standard
back-rank arrangement (§8); White on ranks 0-1, Black on ranks 6-7. -/
def initBoard : Board := fun i j =>
  if j.val = 1 then some ⟨Team.White, Rank.Pawn⟩
  else if j.val = 6 then some ⟨Team.Black, Rank.Pawn⟩
  else if j.val = 0 then some ⟨Team.White, backRank i⟩
  else if j.val = 7 then some ⟨Team.Black, backRank i⟩
  else none

/-- Modelled from the spec: `Game::new` — initial position, White to move
first, empty history, no pending promotion (§3, §8). -/
def Game.new : Game :=
  { board := initBoard, player := Team.White, history := [], promotion_piece := none }

end Chess

namespace Gui

open Chess

/-- GUI session state (`enum State`, src/main.rs:56-61). -/
inductive State
| Active
| Gameover
| Pause
deriving DecidableEq, Repr

/-- Mouse buttons as delivered by the event loop (only Left matters to the
handler). -/
inductive MouseButton
| Left
| Right
| Middle
| Other
deriving DecidableEq, Repr

/-- Board position of a tile (`struct BoardPosition`, src/main.rs:68-72);
`x` and `y` are Rust `isize`. -/
structure BoardPosition where
  x : Int
  y : Int
deriving DecidableEq, Repr

/-- `BoardPosition::new` (src/main.rs:74-77). -/
def BoardPosition.new (pos : Int × Int) : BoardPosition :=
  { x := pos.1, y := pos.2 }

/-- `BoardPosition::to_letter` (src/main.rs:78-93): the rank digit is
`self.y` itself (no `+ 1`), the file letter comes from `self.x + 1`;
`none` models the `panic!` arm of the match. -/
def BoardPosition.to_letter (p : BoardPosition) : Option String :=
  let row_letter : String := toString p.y
  let column_number := p.x + 1
  let column_letter : Option String :=
    if column_number = 1 then some "a"
    else if column_number = 2 then some "b"
    else if column_number = 3 then some "c"
    else if column_number = 4 then some "d"
    else if column_number = 5 then some "e"
    else if column_number = 6 then some "f"
    else if column_number = 7 then some "g"
    else if column_number = 8 then some "h"
    else none
  column_letter.map (fun l => l ++ row_letter)

/-- `coordinate_to_string` (src/main.rs:523-539): file letter from
`coordinate.0 + 1`, rank digit from `coordinate.1 + 1`; `none` models the
`panic!` arm. -/
def coordinate_to_string (coordinate : Int × Int) : Option String :=
  let row_letter : String := toString (coordinate.2 + 1)
  let column_number := coordinate.1 + 1
  let column_letter : Option String :=
    if column_number = 1 then some "a"
    else if column_number = 2 then some "b"
    else if column_number = 3 then some "c"
    else if column_number = 4 then some "d"
    else if column_number = 5 then some "e"
    else if column_number = 6 then some "f"
    else if column_number = 7 then some "g"
    else if column_number = 8 then some "h"
    else none
  column_letter.map (fun l => l ++ row_letter)

/-- The notation contract of the spec (§4.4): file letter a-h followed by
the 1-based rank digit.  Stated separately from the source functions so
that each can be compared against it. -/
def to_algebraic (c : Int × Int) : Option String :=
  (if c.1 = 0 then some "a"
   else if c.1 = 1 then some "b"
   else if c.1 = 2 then some "c"
   else if c.1 = 3 then some "d"
   else if c.1 = 4 then some "e"
   else if c.1 = 5 then some "f"
   else if c.1 = 6 then some "g"
   else if c.1 = 7 then some "h"
   else none).map (fun l => l ++ toString (c.2 + 1))

/-- A clicked/highlighted tile (`struct Tile`, src/main.rs:63-66). -/
structure Tile where
  pos : BoardPosition
deriving DecidableEq, Repr

/-- `MULTIPLE_SCREEN = 1.5` and
`GRID_CELL_SIZE = ((45.0 * 1.5) as i16, (45.0 * 1.5) as i16)`
(src/main.rs:20-28): the f32 product 67.5 truncates to 67. -/
def GRID_CELL_SIZE : Int × Int := (Int.tdiv (45 * 3) 2, Int.tdiv (45 * 3) 2)

/-- `SCREEN_SIZE` (src/main.rs:31-34): 8 * 67 = 536 in each direction. -/
def SCREEN_SIZE : Int × Int := (8 * GRID_CELL_SIZE.1, 8 * GRID_CELL_SIZE.2)

/-- `REPLAY_BUTTON_SIZE = (120, 120)` (src/main.rs:41). -/
def REPLAY_BUTTON_SIZE : Int × Int := (120, 120)

/-- The GUI application state (`struct AppState`, src/main.rs:44-54), minus
the loaded sprite images (pure presentation data). -/
structure AppState where
  board : Game
  available_tiles : List Tile
  selected_piece : Option Tile
  available_actions : List Action
  state : State
  is_replay : Bool
  text : String

/-- `AppState::new` (src/main.rs:130-154): fresh game, nothing selected,
no highlighted tiles, active session. -/
def AppState.new : AppState :=
  { board := Game.new,
    available_tiles := [],
    available_actions := [],
    selected_piece := none,
    state := State.Active,
    is_replay := false,
    text := "" }

/-- `update` (src/main.rs:178-188): on replay, reset the game and all click
state. -/
def AppState.update (s : AppState) : AppState :=
  if s.is_replay then
    { s with board := Game.new,
             available_tiles := [],
             selected_piece := none,
             available_actions := [],
             state := State.Active,
             is_replay := false }
  else s

/-- The early-return guard of the click handler (src/main.rs:413-416):
`self.selected_piece.is_some() && clicked_tile == self.selected_piece.unwrap()`. -/
def selectedGuard (sel : Option Tile) (clicked : Tile) : Bool :=
  match sel with
  | some t => clicked = t
  | none => false

/-- Rust `Debug` rendering of a GameState, as interpolated by
`format!("Gamestate:{:?}", ...)` (src/main.rs:453). -/
def gameStateDebug : GameState → String
| GameState.Active => "Active"
| GameState.Check => "Check"
| GameState.Checkmate => "Checkmate"
| GameState.Stalemate => "Stalemate"

/-- Outcome of the destination-click loop (src/main.rs:432-447): the
possibly mutated game, whether the highlight lists were cleared, whether
the promotion-unset branch returned early, and which action (if any) was
passed to `perform_action`. -/
structure LoopOut where
  g : Game
  cleared : Bool
  early : Bool
  performed : Option Action

/-- The `for (i, a) in self.available_tiles.iter().enumerate()` loop of the
click handler (src/main.rs:432-447).  On the first tile equal to the
click: if `available_actions[i]` is a Promotion and no promotion piece is
set, clear both lists and return early; otherwise call `perform_action`
on it (result discarded) and clear both lists.  `none` models the panic of
`available_actions[i]` when the index is out of bounds. -/
def clickLoop (g : Game) (acts : List Action) (clicked : Tile) :
    List Tile → Nat → Option LoopOut
| [], _ => some ⟨g, false, false, none⟩
| t :: rest, i =>
  if clicked = t then
    match acts.get? i with
    | none => none
    | some a =>
      if a.action_type = ActionType.Promotion ∧ g.promotion_piece = none then
        some ⟨g, true, true, none⟩
      else
        some ⟨(perform_action g a).1, true, false, some a⟩
  else clickLoop g acts clicked rest (i + 1)

/-- The tail of the Active click branch (src/main.rs:450-453): switch to
Gameover exactly when the game state is Checkmate, and display the game
state. -/
def postlude (s : AppState) : AppState :=
  { s with
    state := if get_game_state s.board = GameState.Checkmate then State.Gameover else s.state,
    text := "Gamestate:" ++ gameStateDebug (get_game_state s.board) }

/-- The promotion-menu text set by the promotion-unset branch
(src/main.rs:436). -/
def promotionHint : String := "Set promotion piece in menu. Press Q for menu."

/-- The clicked board coordinate of the Active branch (src/main.rs:408-409):
`game_x = (x / GRID_CELL_SIZE.0 as f32) as isize` and
`game_y = 7 - (y / GRID_CELL_SIZE.1 as f32) as isize`; the casts truncate
toward zero (`Int.tdiv`). -/
def gameCoord (x y : Int) : Int × Int :=
  (Int.tdiv x GRID_CELL_SIZE.1, 7 - Int.tdiv y GRID_CELL_SIZE.2)

/-- The clicked tile (src/main.rs:410-412). -/
def clickedTile (x y : Int) : Tile := ⟨BoardPosition.new (gameCoord x y)⟩

/-- The left-click logic of the Active branch (src/main.rs:405-454).
Pixel coordinates are integers (see the module comment).  `none` models a
panic (out-of-range file in `coordinate_to_string`, or index out of bounds
in the loop). -/
def activeClick (s : AppState) (x y : Int) : Option AppState :=
  if selectedGuard s.selected_piece (clickedTile x y) then some s
  else
    match coordinate_to_string (gameCoord x y) with
    | none => none
    | some str =>
      match move_from_string s.board str with
      | Except.ok actions =>
        some (postlude { s with
          available_tiles := actions.map (fun a => ⟨BoardPosition.new a.toC⟩),
          available_actions := actions })
      | Except.error _ =>
        if s.available_tiles = [] then some (postlude s)
        else
          match clickLoop s.board s.available_actions (clickedTile x y) s.available_tiles 0 with
          | none => none
          | some r =>
            if r.early then
              some { s with board := r.g,
                            available_tiles := [],
                            available_actions := [],
                            text := promotionHint }
            else
              some (postlude
                { s with board := r.g,
                         available_tiles := if r.cleared then [] else s.available_tiles,
                         available_actions := if r.cleared then [] else s.available_actions })

/-- The promotion menu's rank list, in row order
(`promotion_ranks`, src/main.rs:467). -/
def promotion_ranks : List Rank := [Rank.Queen, Rank.Bishop, Rank.Rook, Rank.Knight]

/-- Saturating cast to `i16`, as performed by Rust's `as i16` on a float
already truncated toward zero. -/
def i16sat (n : Int) : Int := max (-32768) (min 32767 n)

/-- The promotion-menu row index
`(y - (SCREEN_SIZE.1 as f32 / 2f32)) as i16 / GRID_CELL_SIZE.1`
(src/main.rs:469): i16 division truncates toward zero. -/
def menuIndex (y : Int) : Int :=
  Int.tdiv (i16sat (y - Int.tdiv SCREEN_SIZE.2 2)) GRID_CELL_SIZE.2

/-- The replay-button check of the non-Active click branch
(src/main.rs:457-465): a click inside the replay box sets `is_replay`.
The divisions by 2 are exact (window 536, button 120). -/
def replayCheck (s : AppState) (x y : Int) : AppState :=
  if (Int.tdiv SCREEN_SIZE.1 2 - Int.tdiv REPLAY_BUTTON_SIZE.1 2 < x
      ∧ x < Int.tdiv SCREEN_SIZE.1 2 + Int.tdiv REPLAY_BUTTON_SIZE.1 2)
     ∧ (Int.tdiv SCREEN_SIZE.2 2 - Int.tdiv REPLAY_BUTTON_SIZE.2 2 < y
        ∧ y < Int.tdiv SCREEN_SIZE.2 2 + Int.tdiv REPLAY_BUTTON_SIZE.2 2)
  then { s with is_replay := true } else s

/-- The non-Active click branch (src/main.rs:456-476): the replay button
sets `is_replay`; a click in the promotion column with row index 0-3
stores the corresponding promotion rank and reactivates the session. -/
def pauseClick (s : AppState) (x y : Int) : AppState :=
  if 10 < x ∧ x < 10 + GRID_CELL_SIZE.1 then
    if 0 ≤ menuIndex y ∧ menuIndex y < 4 then
      { replayCheck s x y with
        board := set_promotion_piece (replayCheck s x y).board
          (promotion_ranks.getD (menuIndex y).toNat Rank.Queen),
        state := State.Active }
    else replayCheck s x y
  else replayCheck s x y

/-- `mouse_button_up_event` (src/main.rs:402-478): Active sessions process
left clicks on the board; paused/ended sessions process the replay button
and the promotion menu. -/
def AppState.mouse_button_up_event (s : AppState) (button : MouseButton) (x y : Int) :
    Option AppState :=
  match s.state with
  | State.Active => if button = MouseButton.Left then activeClick s x y else some s
  | _ => some (pauseClick s x y)

/-- Tiles and actions of equal length, each tile the board position of the
matching action's destination. -/
def listsMatch (tiles : List Tile) (acts : List Action) : Prop :=
  tiles.length = acts.length ∧
  ∀ i (h : i < tiles.length) (h' : i < acts.length),
    (tiles.get ⟨i, h⟩).pos = BoardPosition.new (acts.get ⟨i, h'⟩).toC

/-- The highlighted-tiles invariant: `available_tiles` and
`available_actions` have equal length, and each tile is the board position
of the matching action's destination. -/
def tilesMatch (s : AppState) : Prop :=
  listsMatch s.available_tiles s.available_actions

end Gui

namespace Examples

open Chess Gui

/-- A small test position: White King a1, White Pawn e2, Black King h8,
White to move. -/
def board3 : Board := fun i j =>
  if i.val = 0 ∧ j.val = 0 then some ⟨Team.White, Rank.King⟩
  else if i.val = 4 ∧ j.val = 1 then some ⟨Team.White, Rank.Pawn⟩
  else if i.val = 7 ∧ j.val = 7 then some ⟨Team.Black, Rank.King⟩
  else none

/-- The game on `board3`. -/
def g3 : Game := ⟨board3, Team.White, [], none⟩

/-- The single-step pawn move e2-e3 of `g3`. -/
def a32 : Action := ⟨(4, 1), (4, 2), ActionType.Normal⟩

/-- The tile of the destination of `a32`. -/
def t32 : Tile := ⟨⟨4, 2⟩⟩

/-- The full legal-action list of the pawn of `g3`: single and double
step. -/
def acts3 : List Action :=
  [⟨(4, 1), (4, 2), ActionType.Normal⟩, ⟨(4, 1), (4, 3), ActionType.Normal⟩]

/-- A stalemate position: Black King a8, White Queen c7, White King b6,
Black to move — Black has no legal action and is not in check. -/
def stBoard : Board := fun i j =>
  if i.val = 0 ∧ j.val = 7 then some ⟨Team.Black, Rank.King⟩
  else if i.val = 2 ∧ j.val = 6 then some ⟨Team.White, Rank.Queen⟩
  else if i.val = 1 ∧ j.val = 5 then some ⟨Team.White, Rank.King⟩
  else none

/-- The stalemated game on `stBoard`. -/
def stG : Game := ⟨stBoard, Team.Black, [], none⟩

/-- An active GUI session whose game is already stalemated. -/
def sSt : AppState :=
  { board := stG,
    available_tiles := [],
    available_actions := [],
    selected_piece := none,
    state := State.Active,
    is_replay := false,
    text := "" }

/-- A checkmate position: Black King h8, White Queen g7 (guarded by the
White King f6), Black to move. -/
def mateBoard : Board := fun i j =>
  if i.val = 7 ∧ j.val = 7 then some ⟨Team.Black, Rank.King⟩
  else if i.val = 6 ∧ j.val = 6 then some ⟨Team.White, Rank.Queen⟩
  else if i.val = 5 ∧ j.val = 5 then some ⟨Team.White, Rank.King⟩
  else none

/-- The checkmated game on `mateBoard`. -/
def mateG : Game := ⟨mateBoard, Team.Black, [], none⟩

/-- An active GUI session whose game is already checkmated. -/
def sMate : AppState :=
  { board := mateG,
    available_tiles := [],
    available_actions := [],
    selected_piece := none,
    state := State.Active,
    is_replay := false,
    text := "" }

/-- The session `sSt` after a left click on the empty square f3
(pixel (400, 400)): nothing happens except the game-state text. -/
def sStAfter : AppState :=
  { sSt with text := "Gamestate:" ++ gameStateDebug (Chess.get_game_state stG) }

/-- The session `sMate` after a left click on the empty square f3
(pixel (400, 400)): the Checkmate is noticed and the session ends. -/
def sMateAfter : AppState :=
  { sMate with state := State.Gameover,
               text := "Gamestate:" ++ gameStateDebug (Chess.get_game_state mateG) }

/-- A position with a White pawn on a7, one step from promotion. -/
def promoBoard : Board := fun i j =>
  if i.val = 0 ∧ j.val = 6 then some ⟨Team.White, Rank.Pawn⟩ else none

/-- The game on `promoBoard`, no pending promotion piece. -/
def gP : Game := ⟨promoBoard, Team.White, [], none⟩

/-- The promotion push a7-a8 of `gP`. -/
def aP : Action := ⟨(0, 6), (0, 7), ActionType.Promotion⟩

/-- A paused GUI session (promotion menu showing). -/
def sPause : AppState :=
  { board := gP,
    available_tiles := [],
    available_actions := [],
    selected_piece := none,
    state := State.Pause,
    is_replay := false,
    text := "" }

end Examples

namespace Chess

theorem mem_allCoords {c : Coord} (h : InRange c) : c ∈ allCoords := by
  obtain ⟨x, y⟩ := c
  obtain ⟨h1, h2, h3, h4⟩ := h
  simp only [allCoords, List.mem_flatMap, List.mem_map, List.mem_range, Prod.mk.injEq]
  refine ⟨x.toNat, by omega, y.toNat, by omega, ?_, ?_⟩ <;> simp [Int.ofNat_toNat] <;> omega

theorem pieceAt_some_inRange {b : Board} {c : Coord} {p : Piece}
    (h : pieceAt b c = some p) : InRange c := by
  by_cases hc : InRange c
  · exact hc
  · unfold pieceAt at h
    rw [dif_neg hc] at h
    cases h

theorem pieceAt_place_self {b : Board} {c : Coord} {p : Option Piece}
    (h : InRange c) : pieceAt (place b c p) c = p := by
  unfold pieceAt place
  rw [dif_pos h, if_pos h]
  simp

end Chess

namespace Gui

theorem clickLoop_no_unset_promotion (g : Chess.Game) (acts : List Chess.Action)
    (clicked : Tile) (hpp : g.promotion_piece = none) :
    ∀ (tiles : List Tile) (i : Nat) (res : LoopOut) (act : Chess.Action),
      clickLoop g acts clicked tiles i = some res → res.performed = some act →
      act.action_type ≠ Chess.ActionType.Promotion := by
  intro tiles
  induction tiles with
  | nil =>
    intro i res act h hperf
    unfold clickLoop at h
    injection h with h
    subst h
    simp at hperf
  | cons t rest ih =>
    intro i res act h hperf
    unfold clickLoop at h
    by_cases hc : clicked = t
    · rw [if_pos hc] at h
      cases hg : acts.get? i with
      | none => rw [hg] at h; cases h
      | some a =>
        rw [hg] at h
        dsimp only at h
        by_cases hcond : a.action_type = Chess.ActionType.Promotion ∧ g.promotion_piece = none
        · rw [if_pos hcond] at h
          injection h with h
          subst h
          simp at hperf
        · rw [if_neg hcond] at h
          injection h with h
          subst h
          simp only [LoopOut.performed] at hperf
          injection hperf with hperf
          subst hperf
          intro habs
          exact hcond ⟨habs, hpp⟩
    · rw [if_neg hc] at h
      exact ih (i + 1) res act h hperf

theorem postlude_selected (t : AppState) : (postlude t).selected_piece = t.selected_piece := rfl

theorem postlude_state_gameover (t : AppState) (h : (postlude t).state = State.Gameover)
    (h2 : t.state ≠ State.Gameover) :
    Chess.get_game_state (postlude t).board = Chess.GameState.Checkmate := by
  unfold postlude at h ⊢
  dsimp at h ⊢
  split at h
  · assumption
  · exact absurd h h2

end Gui

namespace Gui

theorem activeClick_selected (s : AppState) (x y : Int) (s' : AppState)
    (h : activeClick s x y = some s') : s'.selected_piece = s.selected_piece := by
  unfold activeClick at h
  repeat' split at h
  all_goals first
  | (injection h with h; subst h; rfl)
  | injection h

theorem replayCheck_selected (s : AppState) (x y : Int) :
    (replayCheck s x y).selected_piece = s.selected_piece := by
  unfold replayCheck
  split
  · rfl
  · rfl

theorem pauseClick_selected (s : AppState) (x y : Int) :
    (pauseClick s x y).selected_piece = s.selected_piece := by
  unfold pauseClick
  repeat' split
  all_goals simp [replayCheck_selected]

end Gui

namespace Gui

theorem listsMatch_nil : listsMatch [] [] :=
  ⟨rfl, fun i h _ => absurd h (by simp)⟩

theorem listsMatch_map (acts : List Chess.Action) :
    listsMatch (acts.map (fun a => ⟨BoardPosition.new a.toC⟩)) acts := by
  refine ⟨by simp, ?_⟩
  intro i h h'
  simp [List.get_eq_getElem, List.getElem_map]

set_option maxHeartbeats 1000000 in
theorem activeClick_shape (s : AppState) (x y : Int) (s' : AppState)
    (h : activeClick s x y = some s') :
    s' = s
    ∨ (∃ acts, s' = postlude
        { s with available_tiles := acts.map (fun a => ⟨BoardPosition.new a.toC⟩),
                 available_actions := acts })
    ∨ (∃ g', s' =
        { s with board := g', available_tiles := [],
                 available_actions := [], text := promotionHint })
    ∨ (∃ g', s' = postlude
        { s with board := g', available_tiles := [],
                 available_actions := [] })
    ∨ (∃ g', s' = postlude { s with board := g' }) := by
  unfold activeClick at h
  repeat' split at h
  all_goals first
  | (injection h with h; subst h; exact Or.inl rfl)
  | (injection h with h; subst h; exact Or.inr (Or.inl ⟨_, rfl⟩))
  | (injection h with h; subst h; exact Or.inr (Or.inr (Or.inl ⟨_, rfl⟩)))
  | (injection h with h; subst h; exact Or.inr (Or.inr (Or.inr (Or.inl ⟨_, rfl⟩))))
  | (injection h with h; subst h; exact Or.inr (Or.inr (Or.inr (Or.inr ⟨_, rfl⟩))))
  | injection h

theorem activeClick_gameover (s : AppState) (x y : Int) (s' : AppState)
    (h : activeClick s x y = some s') (hA : s.state = State.Active)
    (hG : s'.state = State.Gameover) :
    Chess.get_game_state s'.board = Chess.GameState.Checkmate := by
  rcases activeClick_shape s x y s' h with
    h1 | ⟨acts, h1⟩ | ⟨g', h1⟩ | ⟨g', h1⟩ | ⟨g', h1⟩ <;> subst h1
  · simp [hA] at hG
  · exact postlude_state_gameover _ hG (by simp [hA])
  · simp [hA] at hG
  · exact postlude_state_gameover _ hG (by simp [hA])
  · exact postlude_state_gameover _ hG (by simp [hA])

theorem activeClick_tilesMatch (s : AppState) (x y : Int) (s' : AppState)
    (h : activeClick s x y = some s') (hinv : tilesMatch s) : tilesMatch s' := by
  rcases activeClick_shape s x y s' h with
    h1 | ⟨acts, h1⟩ | ⟨g', h1⟩ | ⟨g', h1⟩ | ⟨g', h1⟩ <;> subst h1
  · exact hinv
  · exact listsMatch_map acts
  · exact listsMatch_nil
  · exact listsMatch_nil
  · exact hinv

end Gui

namespace Chess

theorem select_ok_eq (g : Game) (c : Coord) (l : List Action)
    (h : select g c = Except.ok l) :
    l = legalActions g c ∧ ∃ p, pieceAt g.board c = some p ∧ p.team = g.player := by
  unfold select at h
  cases hp : pieceAt g.board c with
  | none => rw [hp] at h; exact Except.noConfusion h
  | some p =>
    rw [hp] at h
    dsimp only at h
    by_cases ht : p.team = g.player
    · rw [if_pos ht] at h
      injection h with h
      exact ⟨h.symm, p, rfl, ht⟩
    · rw [if_neg ht] at h
      exact Except.noConfusion h

theorem mem_allLegalActions {g : Game} {c : Coord} {a : Action}
    (hc : c ∈ allCoords) (ha : a ∈ legalActions g c) : a ∈ allLegalActions g := by
  unfold allLegalActions
  exact List.mem_flatMap.mpr ⟨c, hc, ha⟩

theorem terminal_no_legal {g : Game}
    (hterm : get_game_state g = GameState.Checkmate ∨ get_game_state g = GameState.Stalemate) :
    allLegalActions g = [] := by
  by_cases hA : allLegalActions g = []
  · exact hA
  · unfold get_game_state at hterm
    rw [if_neg hA] at hterm
    rcases hterm with h1 | h1 <;> (split at h1 <;> exact GameState.noConfusion h1)

end Chess

open Chess Gui Examples in
/-- C2: for every position and coordinate, every action returned as legal
by `select` is pseudo-legal and, after hypothetically applying it on a
scratch copy of the Board, the mover's own King's square is not attacked
by the opposing Team. -/
theorem claim_C2_select_king_safety (g : Game) (c : Coord) (acts : List Action)
    (a : Action) (hsel : select g c = Except.ok acts) (ha : a ∈ acts) :
    a ∈ pseudoLegal g c ∧
    ∀ k, findKing (boardApply g.board g.promotion_piece a) g.player = some k →
      attacked (boardApply g.board g.promotion_piece a) k (opponent g.player) = false := by
  obtain ⟨hl, -⟩ := select_ok_eq g c acts hsel
  subst hl
  unfold legalActions at ha
  obtain ⟨hmem, hpred⟩ := List.mem_filter.mp ha
  refine ⟨hmem, ?_⟩
  intro k hk
  unfold kingSafeAfter at hpred
  dsimp only at hpred
  rw [hk] at hpred
  dsimp only at hpred
  simpa using hpred

open Chess Gui Examples in
/-- Witness for C2 at the small position `g3`: the pawn push e2-e3 is
among the selected actions and leaves the White King on a1 unattacked. -/
theorem claim_C2_select_king_safety_witness :
    a32 ∈ pseudoLegal g3 ((4 : Int), (1 : Int)) ∧
    attacked (boardApply g3.board g3.promotion_piece a32) ((0 : Int), (0 : Int))
      (opponent g3.player) = false := by
  have h := claim_C2_select_king_safety g3 (4, 1) acts3 a32 rfl (by decide)
  exact ⟨h.1, h.2 (0, 0) (by decide)⟩

open Chess Gui Examples in
/-- C4: `select` returns the full legal-action set when the coordinate
holds a piece of the side to move, and fails with `NoSelectablePiece`
exactly when the square is empty or holds an opponent's piece. -/
theorem claim_C4_select_contract (g : Game) (c : Coord) :
    ((∃ p, pieceAt g.board c = some p ∧ p.team = g.player) →
      select g c = Except.ok (legalActions g c)) ∧
    (select g c = Except.error Error.NoSelectablePiece ↔
      ¬ ∃ p, pieceAt g.board c = some p ∧ p.team = g.player) := by
  constructor
  · rintro ⟨p, hp, ht⟩
    unfold select
    rw [hp]
    dsimp only
    rw [if_pos ht]
  · unfold select
    cases hp : pieceAt g.board c with
    | none => simp
    | some p =>
      dsimp only
      by_cases ht : p.team = g.player
      · rw [if_pos ht]
        simp [ht]
      · rw [if_neg ht]
        simp [ht]

open Chess Gui Examples in
/-- Witness for C4 at `g3`: selecting the White pawn on e2 succeeds with
the legal-action set. -/
theorem claim_C4_select_contract_witness :
    select g3 ((4 : Int), (1 : Int)) = Except.ok (legalActions g3 ((4 : Int), (1 : Int))) :=
  (claim_C4_select_contract g3 (4, 1)).1 ⟨⟨Team.White, Rank.Pawn⟩, by decide, rfl⟩

open Chess Gui Examples in
/-- C1: a Promotion action with no pending promotion Rank fails with
`PromotionPieceUnset` and leaves the Game (hence the Board) unmodified;
after `set_promotion_piece r` the same action succeeds and the destination
square holds a piece of Rank `r`; and the GUI's destination-click loop
never invokes `perform_action` on a Promotion action while
`promotion_piece` is unset. -/
theorem claim_C1_promotion_protocol (g : Game) (a : Action) (r : Rank) (p : Piece)
    (htype : a.action_type = ActionType.Promotion) :
    (g.promotion_piece = none →
      perform_action g a = (g, Except.error Error.PromotionPieceUnset)) ∧
    (pieceAt g.board a.fromC = some p → InRange a.toC →
      (perform_action (set_promotion_piece g r) a).2 = Except.ok () ∧
      pieceAt (perform_action (set_promotion_piece g r) a).1.board a.toC
        = some ⟨p.team, r⟩) ∧
    (∀ (g' : Game) (acts : List Action) (clicked : Tile) (tiles : List Tile)
        (i : Nat) (res : LoopOut) (act : Action),
      g'.promotion_piece = none →
      clickLoop g' acts clicked tiles i = some res →
      res.performed = some act → act.action_type ≠ ActionType.Promotion) := by
  refine ⟨?_, ?_, ?_⟩
  · intro hpp
    unfold perform_action
    rw [if_pos ⟨htype, hpp⟩]
  · intro hfrom hto
    have hcond : ¬(a.action_type = ActionType.Promotion ∧
        (set_promotion_piece g r).promotion_piece = none) := by
      simp [set_promotion_piece]
    constructor
    · unfold perform_action
      rw [if_neg hcond]
    · unfold perform_action
      rw [if_neg hcond]
      dsimp only
      unfold boardApply
      rw [htype]
      dsimp only
      simp only [set_promotion_piece]
      rw [hfrom]
      dsimp only [Option.map, Option.getD]
      exact pieceAt_place_self hto
  · exact fun g' acts clicked tiles i res act hpp hl hperf =>
      clickLoop_no_unset_promotion g' acts clicked hpp tiles i res act hl hperf

open Chess Gui Examples in
/-- Witness for C1: on the a7-pawn position, promoting before choosing a
rank fails and changes nothing; after choosing Queen it succeeds and a8
holds a White Queen; the click loop performs only the non-Promotion
action `a32`. -/
theorem claim_C1_promotion_protocol_witness :
    perform_action gP aP = (gP, Except.error Error.PromotionPieceUnset) ∧
    (perform_action (set_promotion_piece gP Rank.Queen) aP).2 = Except.ok () ∧
    pieceAt (perform_action (set_promotion_piece gP Rank.Queen) aP).1.board
      ((0 : Int), (7 : Int)) = some ⟨Team.White, Rank.Queen⟩ ∧
    a32.action_type ≠ ActionType.Promotion := by
  have h := claim_C1_promotion_protocol gP aP Rank.Queen ⟨Team.White, Rank.Pawn⟩ rfl
  refine ⟨h.1 rfl, (h.2.1 (by decide) (by decide)).1, (h.2.1 (by decide) (by decide)).2, ?_⟩
  exact h.2.2 g3 [a32] t32 [t32] 0
    ⟨(perform_action g3 a32).1, true, false, some a32⟩ a32 rfl rfl rfl

open Chess Gui Examples in
/-- C3 (amended): Checkmate and Stalemate are terminal in the engine — in
a terminal state `select` never returns a non-empty action list, so no
further action can be chosen; in the GUI, the session transitions to
Gameover only when `get_game_state()` is Checkmate (after a Stalemate the
session state remains Active). -/
theorem claim_C3_terminal_amended :
    (∀ (g : Game) (c : Coord) (l : List Action),
      (get_game_state g = GameState.Checkmate ∨ get_game_state g = GameState.Stalemate) →
      select g c = Except.ok l → l = []) ∧
    (∀ (s : AppState) (b : MouseButton) (x y : Int) (s' : AppState),
      s.state = State.Active →
      s.mouse_button_up_event b x y = some s' →
      s'.state = State.Gameover →
      get_game_state s'.board = GameState.Checkmate) := by
  constructor
  · intro g c l hterm hsel
    obtain ⟨hl, p, hp, ht⟩ := select_ok_eq g c l hsel
    subst hl
    cases hLA : legalActions g c with
    | nil => rfl
    | cons a rest =>
      exfalso
      have hmem : a ∈ allLegalActions g :=
        mem_allLegalActions (mem_allCoords (pieceAt_some_inRange hp))
          (hLA ▸ List.mem_cons_self a rest)
      rw [terminal_no_legal hterm] at hmem
      exact List.not_mem_nil a hmem
  · intro s b x y s' hA h hG
    unfold AppState.mouse_button_up_event at h
    rw [hA] at h
    dsimp only at h
    by_cases hb : b = MouseButton.Left
    · rw [if_pos hb] at h
      exact activeClick_gameover s x y s' h hA hG
    · rw [if_neg hb] at h
      injection h with h
      subst h
      rw [hA] at hG
      exact State.noConfusion hG

open Chess Gui Examples in
/-- Witness for C3: in the stalemate position the Black King's selection
yields no legal action, and in the checkmate position a processed click
ends the session with the state Checkmate. -/
theorem claim_C3_terminal_amended_witness :
    legalActions stG ((0 : Int), (7 : Int)) = [] ∧
    get_game_state sMateAfter.board = GameState.Checkmate := by
  constructor
  · exact claim_C3_terminal_amended.1 stG (0, 7) (legalActions stG (0, 7))
      (Or.inr (by decide)) rfl
  · exact claim_C3_terminal_amended.2 sMate MouseButton.Left 400 400 sMateAfter
      rfl rfl rfl

open Chess Gui Examples in
/-- Counterexample to C3 as stated: the game `stG` is in the terminal
state Stalemate, yet a board click is still processed by the Active
session and the session state remains Active (the code transitions to
Gameover only on Checkmate), so the GUI does not stop accepting board
clicks after a Stalemate. -/
theorem claim_C3_stalemate_counterexample :
    get_game_state stG = GameState.Stalemate ∧
    sSt.state = State.Active ∧
    sSt.mouse_button_up_event MouseButton.Left 400 400 = some sStAfter ∧
    sStAfter.state = State.Active := by
  refine ⟨by decide, rfl, rfl, rfl⟩

open Chess Gui Examples in
/-- C5 (code bug): `BoardPosition::to_letter` omits the `+ 1` on the rank
digit that the §4.4 notation contract (and `coordinate_to_string`)
requires: on the coordinate (0, 0) it produces "a0" where the contract
and `coordinate_to_string` produce "a1". -/
theorem claim_C5_to_letter_zero_based :
    BoardPosition.to_letter ⟨0, 0⟩ = some "a0" ∧
    coordinate_to_string (0, 0) = some "a1" ∧
    to_algebraic (0, 0) = some "a1" ∧
    BoardPosition.to_letter ⟨0, 0⟩ ≠ to_algebraic (0, 0) := by
  refine ⟨rfl, rfl, rfl, by decide⟩

open Chess Gui Examples in
/-- C6: for all 64 board coordinates, parsing the string produced by
`coordinate_to_string` recovers the original coordinate. -/
theorem claim_C6_roundtrip (x y : Int) (hx0 : 0 ≤ x) (hx : x < 8)
    (hy0 : 0 ≤ y) (hy : y < 8) :
    (coordinate_to_string (x, y)).bind parseCoord = some (x, y) := by
  interval_cases x <;> interval_cases y <;> rfl

open Chess Gui Examples in
/-- Witness for C6 at the corner squares a1 and h8. -/
theorem claim_C6_roundtrip_witness :
    (coordinate_to_string ((0 : Int), (0 : Int))).bind parseCoord = some (0, 0) ∧
    (coordinate_to_string ((7 : Int), (7 : Int))).bind parseCoord = some (7, 7) :=
  ⟨claim_C6_roundtrip 0 0 (by decide) (by decide) (by decide) (by decide),
   claim_C6_roundtrip 7 7 (by decide) (by decide) (by decide) (by decide)⟩

open Chess Gui Examples in
/-- C7: for in-range coordinates (file and rank 0-7) neither
coordinate-to-string conversion reaches its panic arm. -/
theorem claim_C7_no_panic (x y : Int) (hx0 : 0 ≤ x) (hx : x < 8)
    (_hy0 : 0 ≤ y) (_hy : y < 8) :
    (coordinate_to_string (x, y)).isSome = true ∧
    (BoardPosition.to_letter ⟨x, y⟩).isSome = true := by
  interval_cases x <;> exact ⟨rfl, rfl⟩

open Chess Gui Examples in
/-- Witness for C7 at a1. -/
theorem claim_C7_no_panic_witness :
    (coordinate_to_string ((0 : Int), (0 : Int))).isSome = true ∧
    (BoardPosition.to_letter ⟨0, 0⟩).isSome = true :=
  claim_C7_no_panic 0 0 (by decide) (by decide) (by decide) (by decide)

namespace Gui

theorem pauseClick_tiles (s : AppState) (x y : Int) :
    (pauseClick s x y).available_tiles = s.available_tiles ∧
    (pauseClick s x y).available_actions = s.available_actions := by
  unfold pauseClick replayCheck
  repeat' split
  all_goals exact ⟨rfl, rfl⟩

theorem replayCheck_board (s : AppState) (x y : Int) :
    (replayCheck s x y).board = s.board := by
  unfold replayCheck
  split
  · rfl
  · rfl

end Gui

open Chess Gui Examples in
/-- C8: `selected_piece` is `none` initially, stays `none` across `update`,
is never reassigned by `mouse_button_up_event`, and with `selected_piece`
at `none` the early-return guard of the click handler is always false. -/
theorem claim_C8_selected_piece_none :
    AppState.new.selected_piece = none ∧
    (∀ s : AppState, s.selected_piece = none → (s.update).selected_piece = none) ∧
    (∀ (s : AppState) (b : MouseButton) (x y : Int) (s' : AppState),
      s.mouse_button_up_event b x y = some s' → s'.selected_piece = s.selected_piece) ∧
    (∀ clicked : Tile, selectedGuard none clicked = false) := by
  refine ⟨rfl, ?_, ?_, fun clicked => rfl⟩
  · intro s h
    unfold AppState.update
    split
    · rfl
    · exact h
  · intro s b x y s' h
    unfold AppState.mouse_button_up_event at h
    cases hst : s.state with
    | Active =>
      rw [hst] at h
      dsimp only at h
      by_cases hb : b = MouseButton.Left
      · rw [if_pos hb] at h
        exact activeClick_selected s x y s' h
      · rw [if_neg hb] at h
        injection h with h
        subst h
        rfl
    | Gameover =>
      rw [hst] at h
      dsimp only at h
      injection h with h
      subst h
      exact pauseClick_selected s x y
    | Pause =>
      rw [hst] at h
      dsimp only at h
      injection h with h
      subst h
      exact pauseClick_selected s x y

open Chess Gui Examples in
/-- Witness for C8: after an update of the fresh session, and after the
click processed on `sSt`, `selected_piece` is unchanged (`none`). -/
theorem claim_C8_selected_piece_none_witness :
    (AppState.new.update).selected_piece = none ∧
    sStAfter.selected_piece = sSt.selected_piece :=
  ⟨claim_C8_selected_piece_none.2.1 AppState.new rfl,
   claim_C8_selected_piece_none.2.2.1 sSt MouseButton.Left 400 400 sStAfter rfl⟩

open Chess Gui Examples in
/-- C9: initially, after every `update`, and after every
`mouse_button_up_event`, the highlighted tiles correspond one-to-one and
in order with the stored legal actions' destinations. -/
theorem claim_C9_tiles_actions_invariant :
    tilesMatch AppState.new ∧
    (∀ s : AppState, tilesMatch s → tilesMatch s.update) ∧
    (∀ (s : AppState) (b : MouseButton) (x y : Int) (s' : AppState),
      tilesMatch s → s.mouse_button_up_event b x y = some s' → tilesMatch s') := by
  refine ⟨listsMatch_nil, ?_, ?_⟩
  · intro s hinv
    unfold AppState.update
    split
    · exact listsMatch_nil
    · exact hinv
  · intro s b x y s' hinv h
    unfold AppState.mouse_button_up_event at h
    cases hst : s.state with
    | Active =>
      rw [hst] at h
      dsimp only at h
      by_cases hb : b = MouseButton.Left
      · rw [if_pos hb] at h
        exact activeClick_tilesMatch s x y s' h hinv
      · rw [if_neg hb] at h
        injection h with h
        subst h
        exact hinv
    | Gameover =>
      rw [hst] at h
      dsimp only at h
      injection h with h
      subst h
      unfold tilesMatch
      rw [(pauseClick_tiles s x y).1, (pauseClick_tiles s x y).2]
      exact hinv
    | Pause =>
      rw [hst] at h
      dsimp only at h
      injection h with h
      subst h
      unfold tilesMatch
      rw [(pauseClick_tiles s x y).1, (pauseClick_tiles s x y).2]
      exact hinv

open Chess Gui Examples in
/-- Witness for C9: the invariant holds after an update of the fresh
session and after the click processed on `sSt`. -/
theorem claim_C9_tiles_actions_invariant_witness :
    tilesMatch (AppState.new.update) ∧ tilesMatch sStAfter :=
  ⟨claim_C9_tiles_actions_invariant.2.1 AppState.new listsMatch_nil,
   claim_C9_tiles_actions_invariant.2.2 sSt MouseButton.Left 400 400 sStAfter
     listsMatch_nil rfl⟩

open Chess Gui Examples in
/-- C10: in a non-Active session, a click strictly inside the promotion
column (10 < x < 10 + cell width) whose computed menu row index is 0-3
stores `promotion_ranks[index]` (row order Queen, Bishop, Rook, Knight)
as the promotion piece and reactivates the session; clicks outside that
column or row range leave the promotion piece unchanged. -/
theorem claim_C10_promotion_menu (s : AppState) (b : MouseButton) (x y : Int)
    (hs : s.state ≠ State.Active) :
    ((10 < x ∧ x < 10 + GRID_CELL_SIZE.1) → (0 ≤ menuIndex y ∧ menuIndex y < 4) →
      (s.mouse_button_up_event b x y).map (fun t => (t.board.promotion_piece, t.state))
        = some (some (promotion_ranks.getD (menuIndex y).toNat Rank.Queen), State.Active)) ∧
    (¬(10 < x ∧ x < 10 + GRID_CELL_SIZE.1) ∨ ¬(0 ≤ menuIndex y ∧ menuIndex y < 4) →
      (s.mouse_button_up_event b x y).map (fun t => t.board.promotion_piece)
        = some s.board.promotion_piece) := by
  have hmouse : s.mouse_button_up_event b x y = some (pauseClick s x y) := by
    unfold AppState.mouse_button_up_event
    cases hst : s.state with
    | Active => exact absurd hst hs
    | Gameover => rfl
    | Pause => rfl
  rw [hmouse]
  constructor
  · intro hx hy
    unfold pauseClick
    rw [if_pos hx, if_pos hy]
    dsimp only [Option.map]
    rfl
  · intro hout
    rcases hout with hx | hy
    · unfold pauseClick
      rw [if_neg hx]
      dsimp only [Option.map]
      rw [replayCheck_board]
    · by_cases hx2 : 10 < x ∧ x < 10 + GRID_CELL_SIZE.1
      · unfold pauseClick
        rw [if_pos hx2, if_neg hy]
        dsimp only [Option.map]
        rw [replayCheck_board]
      · unfold pauseClick
        rw [if_neg hx2]
        dsimp only [Option.map]
        rw [replayCheck_board]

open Chess Gui Examples in
/-- Witness for C10: on the paused session, the click (20, 275) is in the
promotion column with row index 0 and stores Queen, reactivating the
session; the click (5, 275) is outside the column and stores nothing. -/
theorem claim_C10_promotion_menu_witness :
    (sPause.mouse_button_up_event MouseButton.Left 20 275).map
        (fun t => (t.board.promotion_piece, t.state))
      = some (some (promotion_ranks.getD (menuIndex 275).toNat Rank.Queen), State.Active) ∧
    (sPause.mouse_button_up_event MouseButton.Left 5 275).map
        (fun t => t.board.promotion_piece)
      = some sPause.board.promotion_piece :=
  ⟨(claim_C10_promotion_menu sPause MouseButton.Left 20 275 (by decide)).1
      (by decide) (by decide),
   (claim_C10_promotion_menu sPause MouseButton.Left 5 275 (by decide)).2
      (Or.inl (by decide))⟩
